import Mathlib

/-!
Shallow embedding of the appointment sync service
(`src/services/appointmentSync.ts` and its callers).

The service scans a master appointments spreadsheet for rows after a
persisted watermark ("last processed row", kept in localStorage), resolves
each scanned row's email against a user directory spreadsheet, and appends
matching rows to the resolved per-user spreadsheet.

Modelling choices:
* localStorage's `last_processed_appointment_row` entry is an `Option Nat`
  (`none` = key absent).
* The remote Sheets API is abstracted by an `Env`: the master sheet and the
  users sheet are lists of rows (row 1 of the sheet is list index 0, so the
  fetched range `A(start):G` is `master.drop lastProcessedRow`), fetch
  failures of either sheet are boolean flags, and the success of the HTTP
  append issued for a given master row is an oracle `appendOk` keyed by that
  row's index.  A JavaScript `throw` is an `Except.error`.
* JS `row[i] || ''` on an array of strings is `row.getD i ""` (both the
  missing-index and the empty-string case yield `""`).
* A JS `Map` built by repeated `set` is an association list with
  insert-or-overwrite (`mapSet`) and first-match lookup (`mapGet`);
  `mapSet` keeps keys unique, matching `Map` semantics.
* Observable effects of a run are returned in a `SyncOutcome`: the final
  stats (or the propagated error), the final watermark, the ordered list of
  `setLastProcessedRow` calls (`wmWrites`), and the ordered list of
  successful sheet appends (`writes`, as pairs of target spreadsheet id and
  the appended cell row).
-/

deriving instance DecidableEq for Except

/-- JS `String.prototype.toLowerCase` on the strings at hand: lower-case
every character. -/
def jsToLower (s : String) : String :=
  String.mk (s.data.map Char.toLower)

/-- JS `String.prototype.trim`: strip leading and trailing whitespace. -/
def jsTrim (s : String) : String :=
  String.mk ((((s.data.dropWhile Char.isWhitespace).reverse).dropWhile
    Char.isWhitespace).reverse)

/-- One parsed appointment, as produced by `fetchNewAppointments`
(lines 84-135 of the service): `rowIndex` is the 1-based master-sheet row. -/
structure Appointment where
  rowIndex : Nat
  patientName : String
  email : String
  phoneNumber : String
  reportUrl : String
  date : String
  startTime : String
  status : String
deriving Repr, DecidableEq

/-- The stats record returned by `syncAppointments` (lines 207-216). -/
structure Stats where
  processed : Nat
  synced : Nat
  errors : Nat
deriving Repr, DecidableEq

/-- The environment abstracting the remote Sheets API and configuration. -/
structure Env where
  apiKeyConfigured : Bool
  master : List (List String)
  users : List (List String)
  masterFetchFails : Bool
  usersFetchFails : Bool
  appendOk : Nat → Bool

/-- Mutable state threaded through the per-appointment loop of
`syncAppointments` (lines 230-255), plus the effect logs. -/
structure LoopState where
  stats : Stats
  watermark : Option Nat
  wmWrites : List Nat
  writes : List (String × List String)
deriving Repr, DecidableEq

/-- The observable outcome of one `syncAppointments` invocation. -/
structure SyncOutcome where
  result : Except String Stats
  watermark : Option Nat
  wmWrites : List Nat
  writes : List (String × List String)
deriving Repr, DecidableEq

/-- `getLastProcessedRow` (lines 28-31): the stored value, else 1. -/
def getLastProcessedRow (wm : Option Nat) : Nat :=
  wm.getD 1

/-- `setLastProcessedRow` (lines 36-38): the stored value after the call. -/
def setLastProcessedRow (rowNumber : Nat) : Option Nat :=
  some rowNumber

/-- JS `Map.prototype.set`: overwrite the binding if the key exists,
otherwise append it (insertion order preserved). -/
def mapSet (m : List (String × String)) (k v : String) : List (String × String) :=
  match m with
  | [] => [(k, v)]
  | (k2, v2) :: rest =>
    if k2 = k then (k, v) :: rest else (k2, v2) :: mapSet rest k v

/-- JS `Map.prototype.get`: the value bound to `k`, if any. -/
def mapGet (m : List (String × String)) (k : String) : Option String :=
  match m with
  | [] => none
  | (k2, v) :: rest => if k2 = k then some v else mapGet rest k

/-- The map construction of `fetchUsersMap` (lines 70-77): for each users row
with non-empty email (col A) and spreadsheet id (col C), bind the
lower-cased trimmed email to the trimmed id. -/
def usersMapStep (m : List (String × String)) (row : List String) :
    List (String × String) :=
  if row.getD 0 "" != "" && row.getD 2 "" != "" then
    mapSet m (jsTrim (jsToLower (row.getD 0 ""))) (jsTrim (row.getD 2 ""))
  else m

/-- The `rows.forEach` of `fetchUsersMap`, folding `usersMapStep` over the
users rows starting from the empty map. -/
def buildUsersMap (rows : List (List String)) : List (String × String) :=
  rows.foldl usersMapStep []

/-- `fetchUsersMap` (lines 44-78): empty map when the API key is missing,
a thrown error when the HTTP fetch fails, else the map built from the rows. -/
def fetchUsersMap (env : Env) : Except String (List (String × String)) :=
  if env.apiKeyConfigured then
    if env.usersFetchFails then Except.error "HTTP error"
    else Except.ok (buildUsersMap env.users)
  else Except.ok []

/-- The per-row parse of `fetchNewAppointments` (lines 123-131): columns
A..G with `|| ''` defaults, the email lower-cased and trimmed, and the
status defaulting to "scheduled". -/
def parseAppointment (rowIndex : Nat) (row : List String) : Appointment :=
  { rowIndex := rowIndex
  , patientName := row.getD 0 ""
  , email := jsTrim (jsToLower (row.getD 1 ""))
  , phoneNumber := row.getD 2 ""
  , reportUrl := row.getD 3 ""
  , date := row.getD 4 ""
  , startTime := row.getD 5 ""
  , status := if row.getD 6 "" = "" then "scheduled" else row.getD 6 "" }

/-- The indexed map `rows.map((row, index) => ...)` of line 123, rendered as
a recursion that increments the row number: element `i` of `rows` gets row
number `startRow + i`. -/
def parseRows (startRow : Nat) : List (List String) → List Appointment
  | [] => []
  | row :: rest => parseAppointment startRow row :: parseRows (startRow + 1) rest

/-- The pure part of `fetchNewAppointments` (lines 104-134): parse the rows
of range `A(lastProcessedRow+1):G` (i.e. `master.drop lastProcessedRow`) and
drop rows with an empty email or patient name (line 132). -/
def scanAppointments (lastProcessedRow : Nat) (master : List (List String)) :
    List Appointment :=
  (parseRows (lastProcessedRow + 1) (master.drop lastProcessedRow)).filter
    (fun a => a.email != "" && a.patientName != "")

/-- `fetchNewAppointments` (lines 84-135): `[]` when the API key is missing,
a thrown error when the HTTP fetch fails, else the scanned appointments. -/
def fetchNewAppointments (env : Env) (wm : Option Nat) :
    Except String (List Appointment) :=
  if env.apiKeyConfigured then
    if env.masterFetchFails then Except.error "HTTP error"
    else Except.ok (scanAppointments (getLastProcessedRow wm) env.master)
  else Except.ok []

/-- The cell row PUT by `appendAppointmentToUserSheet` (lines 186-194):
columns A..G in the order patient name, email, phone, report URL, date,
start time, status. -/
def appointmentToRow (a : Appointment) : List String :=
  [a.patientName, a.email, a.phoneNumber, a.reportUrl, a.date, a.startTime, a.status]

/-- One iteration of the `for` loop of `syncAppointments` (lines 230-255):
`processed++`; the guard `if (!userSpreadsheetId)` at line 237 is a JS
falsiness test, so both a missing directory entry and an empty-string sheet
id (reachable from a whitespace-only id cell, which is truthy untrimmed but
stored trimmed) take the `errors++` / `continue` path, and the `continue`
at line 240 skips the `setLastProcessedRow` call at line 254; on a truthy
sheet id, attempt the append (`synced++` on success, `errors++` when it
throws, caught at line 248) and then set the watermark to this row's index
in either case. -/
def processAppointment (env : Env) (usersMap : List (String × String))
    (st : LoopState) (a : Appointment) : LoopState :=
  match mapGet usersMap a.email with
  | none =>
    { st with stats := { st.stats with
        processed := st.stats.processed + 1
      , errors := st.stats.errors + 1 } }
  | some userSpreadsheetId =>
    if userSpreadsheetId = "" then
      { st with stats := { st.stats with
          processed := st.stats.processed + 1
        , errors := st.stats.errors + 1 } }
    else if env.appendOk a.rowIndex then
      { stats := { st.stats with
          processed := st.stats.processed + 1
        , synced := st.stats.synced + 1 }
      , watermark := setLastProcessedRow a.rowIndex
      , wmWrites := st.wmWrites ++ [a.rowIndex]
      , writes := st.writes ++ [(userSpreadsheetId, appointmentToRow a)] }
    else
      { stats := { st.stats with
          processed := st.stats.processed + 1
        , errors := st.stats.errors + 1 }
      , watermark := setLastProcessedRow a.rowIndex
      , wmWrites := st.wmWrites ++ [a.rowIndex]
      , writes := st.writes }

/-- The `stats` initialisation of lines 212-216 together with the untouched
ambient state at the start of a run. -/
def initLoopState (wm : Option Nat) : LoopState :=
  { stats := { processed := 0, synced := 0, errors := 0 }
  , watermark := wm, wmWrites := [], writes := [] }

/-- `syncAppointments` (lines 207-262): fetch the new appointments (a fetch
failure propagates), return zero stats at once when there are none (the
users directory is then never fetched), else fetch the users map (a fetch
failure propagates) and run the per-appointment loop. -/
def syncAppointments (env : Env) (wm : Option Nat) : SyncOutcome :=
  match fetchNewAppointments env wm with
  | Except.error e => { result := Except.error e, watermark := wm, wmWrites := [], writes := [] }
  | Except.ok newAppointments =>
    if newAppointments.length = 0 then
      { result := Except.ok { processed := 0, synced := 0, errors := 0 }
      , watermark := wm, wmWrites := [], writes := [] }
    else
      match fetchUsersMap env with
      | Except.error e =>
        { result := Except.error e, watermark := wm, wmWrites := [], writes := [] }
      | Except.ok usersMap =>
        let final := newAppointments.foldl (processAppointment env usersMap)
          (initLoopState wm)
        { result := Except.ok final.stats, watermark := final.watermark
        , wmWrites := final.wmWrites, writes := final.writes }

/-- The write (if any) that the loop iteration for `a` performs: `none` when
the lookup is falsy (missing entry or empty-string sheet id, the line 237
test) or the HTTP append fails, else the target sheet id paired with the
appended cell row. -/
def attemptWrite (env : Env) (usersMap : List (String × String))
    (a : Appointment) : Option (String × List String) :=
  match mapGet usersMap a.email with
  | none => none
  | some userSpreadsheetId =>
    if userSpreadsheetId = "" then none
    else if env.appendOk a.rowIndex then some (userSpreadsheetId, appointmentToRow a)
    else none

/-- The truthy result of the directory lookup of lines 235-237: `none` when
the map has no entry for the email or the entry's sheet id is the empty
string (JS falsy), else the sheet id.  A row is "matched" in the loop
exactly when this is `some`. -/
def matchedSheetId (usersMap : List (String × String)) (email : String) :
    Option String :=
  match mapGet usersMap email with
  | none => none
  | some userSpreadsheetId =>
    if userSpreadsheetId = "" then none else some userSpreadsheetId

/-- A concrete run environment: a header row, one master row whose email
matches the single directory entry, all appends succeeding. -/
def envOneMatch : Env :=
  { apiKeyConfigured := true
  , master := [["Header"], ["Alice", "A@X.com ", "555", "r1", "2024-01-01", "09:00", ""]]
  , users := [["a@x.com", "pw", "SHEET-A"]]
  , masterFetchFails := false
  , usersFetchFails := false
  , appendOk := fun _ => true }

/-- Like `envOneMatch`, but every HTTP append fails. -/
def envAppendFail : Env :=
  { envOneMatch with appendOk := fun _ => false }

/-- Like `envOneMatch`, but the user directory is empty, so the scanned
row's email matches no directory entry. -/
def envUnmatched : Env :=
  { envOneMatch with users := [] }

/-- Like `envOneMatch`, but the users row's sheet-id cell is whitespace
only: truthy before trimming (so `fetchUsersMap` puts the row in the map
with value ""), falsy after the `.trim()` (so line 237 treats the row as
unmatched: no append, no watermark write). -/
def envEmptySheetId : Env :=
  { envOneMatch with users := [["a@x.com", "pw", " "]] }

/-- A master sheet whose row 2 has an empty email cell (so it is filtered
out of the scan) while row 3 matches the directory. -/
def envSkipThenMatch : Env :=
  { apiKeyConfigured := true
  , master := [["Header"], ["NoEmail"], ["Bob", "b@x.com"]]
  , users := [["b@x.com", "pw", "SHEET-B"]]
  , masterFetchFails := false
  , usersFetchFails := false
  , appendOk := fun _ => true }

/-- A master sheet with no rows after the watermark; the users fetch would
fail if it were attempted. -/
def envNoNewRows : Env :=
  { apiKeyConfigured := true
  , master := [["Header"]]
  , users := [["a@x.com", "pw", "SHEET-A"]]
  , masterFetchFails := false
  , usersFetchFails := true
  , appendOk := fun _ => true }

/-- Like `envOneMatch`, but the master-sheet fetch fails. -/
def envMasterFail : Env :=
  { envOneMatch with masterFetchFails := true }

/-- Like `envOneMatch`, but the users-sheet fetch fails. -/
def envUsersFail : Env :=
  { envOneMatch with usersFetchFails := true }

example :
    scanAppointments 1 [["h"], ["Alice", "A@X.com ", "5", "u", "d", "t", ""]]
      = [{ rowIndex := 2, patientName := "Alice", email := "a@x.com"
         , phoneNumber := "5", reportUrl := "u", date := "d", startTime := "t"
         , status := "scheduled" }] := by decide

/-! ### Basic lemmas about the parsed scan -/

lemma parseRows_rowIndex_ge (rows : List (List String)) :
    ∀ s : Nat, ∀ a ∈ parseRows s rows, s ≤ a.rowIndex := by
  induction rows with
  | nil => intro s a ha; simp [parseRows] at ha
  | cons row rest ih =>
    intro s a ha
    simp only [parseRows] at ha
    rcases List.mem_cons.mp ha with h | h
    · subst h; exact Nat.le_refl s
    · exact Nat.le_of_succ_le (ih (s + 1) a h)

lemma parseRows_pairwise (rows : List (List String)) :
    ∀ s : Nat, (parseRows s rows).Pairwise (fun a b => a.rowIndex < b.rowIndex) := by
  induction rows with
  | nil => intro s; simp [parseRows]
  | cons row rest ih =>
    intro s
    simp only [parseRows]
    refine List.Pairwise.cons ?_ (ih (s + 1))
    intro b hb
    have hge := parseRows_rowIndex_ge rest (s + 1) b hb
    exact Nat.lt_of_lt_of_le (Nat.lt_succ_self s) hge

lemma parseRows_src (rows : List (List String)) :
    ∀ s : Nat, ∀ a ∈ parseRows s rows,
      ∃ row, row ∈ rows ∧ a = parseAppointment a.rowIndex row := by
  induction rows with
  | nil => intro s a ha; simp [parseRows] at ha
  | cons row rest ih =>
    intro s a ha
    simp only [parseRows] at ha
    rcases List.mem_cons.mp ha with h | h
    · subst h; exact ⟨row, List.mem_cons_self row rest, rfl⟩
    · obtain ⟨r, hr, he⟩ := ih (s + 1) a h
      exact ⟨r, List.mem_cons_of_mem row hr, he⟩

lemma mem_scanAppointments {lpr : Nat} {master : List (List String)}
    {a : Appointment} (ha : a ∈ scanAppointments lpr master) :
    a ∈ parseRows (lpr + 1) (master.drop lpr)
      ∧ a.email ≠ "" ∧ a.patientName ≠ "" := by
  unfold scanAppointments at ha
  have h := List.mem_filter.mp ha
  have h2 := h.2
  simp only [Bool.and_eq_true, bne_iff_ne, ne_eq] at h2
  exact ⟨h.1, h2.1, h2.2⟩

lemma scanAppointments_rowIndex_ge {lpr : Nat} {master : List (List String)} :
    ∀ a ∈ scanAppointments lpr master, lpr + 1 ≤ a.rowIndex := by
  intro a ha
  exact parseRows_rowIndex_ge _ _ a (mem_scanAppointments ha).1

lemma scanAppointments_pairwise (lpr : Nat) (master : List (List String)) :
    (scanAppointments lpr master).Pairwise (fun a b => a.rowIndex < b.rowIndex) :=
  (parseRows_pairwise _ _).sublist (List.filter_sublist _)

lemma scanAppointments_src {lpr : Nat} {master : List (List String)} :
    ∀ a ∈ scanAppointments lpr master,
      ∃ row, row ∈ master ∧ a = parseAppointment a.rowIndex row := by
  intro a ha
  obtain ⟨r, hr, he⟩ := parseRows_src _ _ a (mem_scanAppointments ha).1
  exact ⟨r, List.mem_of_mem_drop hr, he⟩

/-! ### Lemmas about the users map -/

lemma mem_mapSet (m : List (String × String)) (k v : String) :
    ∀ p ∈ mapSet m k v, p ∈ m ∨ p = (k, v) := by
  induction m with
  | nil =>
    intro p hp
    simp only [mapSet, List.mem_singleton] at hp
    right; exact hp
  | cons q rest ih =>
    intro p hp
    obtain ⟨k2, v2⟩ := q
    simp only [mapSet] at hp
    by_cases hk : k2 = k
    · rw [if_pos hk] at hp
      rcases List.mem_cons.mp hp with h | h
      · right; exact h
      · left; exact List.mem_cons_of_mem _ h
    · rw [if_neg hk] at hp
      rcases List.mem_cons.mp hp with h | h
      · left; subst h; exact List.mem_cons_self _ _
      · rcases ih p h with h2 | h2
        · left; exact List.mem_cons_of_mem _ h2
        · right; exact h2

lemma foldl_usersMapStep_mem (rows : List (List String)) :
    ∀ m0 : List (String × String), ∀ p ∈ rows.foldl usersMapStep m0,
      p ∈ m0 ∨ ∃ row, row ∈ rows ∧
        p = (jsTrim (jsToLower (row.getD 0 "")), jsTrim (row.getD 2 "")) := by
  induction rows with
  | nil => intro m0 p hp; left; exact hp
  | cons row rest ih =>
    intro m0 p hp
    rcases ih (usersMapStep m0 row) p hp with h | h
    · unfold usersMapStep at h
      by_cases hc : (row.getD 0 "" != "" && row.getD 2 "" != "") = true
      · rw [if_pos hc] at h
        rcases mem_mapSet _ _ _ p h with h2 | h2
        · left; exact h2
        · right; exact ⟨row, List.mem_cons_self row rest, h2⟩
      · rw [if_neg hc] at h
        left; exact h
    · obtain ⟨r, hr, he⟩ := h
      right; exact ⟨r, List.mem_cons_of_mem row hr, he⟩

lemma mem_buildUsersMap {rows : List (List String)} :
    ∀ p ∈ buildUsersMap rows, ∃ row, row ∈ rows ∧
      p = (jsTrim (jsToLower (row.getD 0 "")), jsTrim (row.getD 2 "")) := by
  intro p hp
  rcases foldl_usersMapStep_mem rows [] p hp with h | h
  · simp at h
  · exact h

lemma mapGet_mem {m : List (String × String)} {k v : String}
    (h : mapGet m k = some v) : (k, v) ∈ m := by
  induction m with
  | nil => simp [mapGet] at h
  | cons q rest ih =>
    obtain ⟨k2, v2⟩ := q
    simp only [mapGet] at h
    by_cases hk : k2 = k
    · rw [if_pos hk] at h
      subst hk
      injection h with h
      subst h
      exact List.mem_cons_self _ _
    · rw [if_neg hk] at h
      exact List.mem_cons_of_mem _ (ih h)

/-! ### Per-iteration lemmas about the loop body -/

lemma processAppointment_stats_processed (env : Env)
    (um : List (String × String)) (st : LoopState) (a : Appointment) :
    (processAppointment env um st a).stats.processed
      = st.stats.processed + 1 := by
  unfold processAppointment
  cases mapGet um a.email with
  | none => rfl
  | some sid =>
    by_cases hsid : sid = ""
    · simp [hsid]
    · cases h : env.appendOk a.rowIndex <;> simp [hsid, h]

lemma processAppointment_synced_errors (env : Env)
    (um : List (String × String)) (st : LoopState) (a : Appointment) :
    (processAppointment env um st a).stats.synced
        + (processAppointment env um st a).stats.errors
      = st.stats.synced + st.stats.errors + 1 := by
  unfold processAppointment
  cases mapGet um a.email with
  | none => simp; omega
  | some sid =>
    by_cases hsid : sid = ""
    · simp [hsid]; omega
    · cases h : env.appendOk a.rowIndex <;> simp [hsid, h] <;> omega

lemma processAppointment_errors (env : Env)
    (um : List (String × String)) (st : LoopState) (a : Appointment) :
    (processAppointment env um st a).stats.errors
      = st.stats.errors
        + (if (attemptWrite env um a).isNone then 1 else 0) := by
  unfold processAppointment attemptWrite
  cases mapGet um a.email with
  | none => simp
  | some sid =>
    by_cases hsid : sid = ""
    · simp [hsid]
    · cases h : env.appendOk a.rowIndex <;> simp [hsid, h]

lemma processAppointment_synced (env : Env)
    (um : List (String × String)) (st : LoopState) (a : Appointment) :
    (processAppointment env um st a).stats.synced
      = st.stats.synced
        + (if (attemptWrite env um a).isSome then 1 else 0) := by
  unfold processAppointment attemptWrite
  cases mapGet um a.email with
  | none => simp
  | some sid =>
    by_cases hsid : sid = ""
    · simp [hsid]
    · cases h : env.appendOk a.rowIndex <;> simp [hsid, h]

lemma processAppointment_writes (env : Env)
    (um : List (String × String)) (st : LoopState) (a : Appointment) :
    (processAppointment env um st a).writes
      = st.writes ++ (attemptWrite env um a).toList := by
  unfold processAppointment attemptWrite
  cases mapGet um a.email with
  | none => simp
  | some sid =>
    by_cases hsid : sid = ""
    · simp [hsid]
    · cases h : env.appendOk a.rowIndex <;> simp [hsid, h]

lemma processAppointment_wmWrites (env : Env)
    (um : List (String × String)) (st : LoopState) (a : Appointment) :
    (processAppointment env um st a).wmWrites
      = st.wmWrites
        ++ (if (matchedSheetId um a.email).isSome then [a.rowIndex] else []) := by
  unfold processAppointment matchedSheetId
  cases hg : mapGet um a.email with
  | none => simp
  | some sid =>
    by_cases hsid : sid = ""
    · simp [hsid]
    · cases h : env.appendOk a.rowIndex <;> simp [hsid, h]

lemma processAppointment_watermark (env : Env)
    (um : List (String × String)) (st : LoopState) (a : Appointment) :
    (processAppointment env um st a).watermark
      = if (matchedSheetId um a.email).isSome then some a.rowIndex
        else st.watermark := by
  unfold processAppointment matchedSheetId setLastProcessedRow
  cases hg : mapGet um a.email with
  | none => simp
  | some sid =>
    by_cases hsid : sid = ""
    · simp [hsid]
    · cases h : env.appendOk a.rowIndex <;> simp [hsid, h]

/-! ### Invariants of the whole loop, by induction on the appointment list -/

lemma foldl_process_processed (env : Env) (um : List (String × String))
    (as : List Appointment) :
    ∀ st : LoopState,
      (as.foldl (processAppointment env um) st).stats.processed
        = st.stats.processed + as.length := by
  induction as with
  | nil => intro st; rfl
  | cons a rest ih =>
    intro st
    simp only [List.foldl_cons, List.length_cons]
    rw [ih, processAppointment_stats_processed]
    omega

lemma foldl_process_sum (env : Env) (um : List (String × String))
    (as : List Appointment) :
    ∀ st : LoopState,
      (as.foldl (processAppointment env um) st).stats.synced
          + (as.foldl (processAppointment env um) st).stats.errors
        = st.stats.synced + st.stats.errors + as.length := by
  induction as with
  | nil => intro st; rfl
  | cons a rest ih =>
    intro st
    simp only [List.foldl_cons, List.length_cons]
    rw [ih]
    have := processAppointment_synced_errors env um st a
    omega

lemma foldl_process_errors (env : Env) (um : List (String × String))
    (as : List Appointment) :
    ∀ st : LoopState,
      (as.foldl (processAppointment env um) st).stats.errors
        = st.stats.errors
          + as.countP (fun a => (attemptWrite env um a).isNone) := by
  induction as with
  | nil => intro st; rfl
  | cons a rest ih =>
    intro st
    simp only [List.foldl_cons, List.countP_cons]
    rw [ih, processAppointment_errors]
    cases h : (attemptWrite env um a).isNone
    · simp [h]
    · simp [h]
      omega

lemma foldl_process_synced (env : Env) (um : List (String × String))
    (as : List Appointment) :
    ∀ st : LoopState,
      (as.foldl (processAppointment env um) st).stats.synced
        = st.stats.synced
          + as.countP (fun a => (attemptWrite env um a).isSome) := by
  induction as with
  | nil => intro st; rfl
  | cons a rest ih =>
    intro st
    simp only [List.foldl_cons, List.countP_cons]
    rw [ih, processAppointment_synced]
    cases h : (attemptWrite env um a).isSome
    · simp [h]
    · simp [h]
      omega

lemma foldl_process_writes (env : Env) (um : List (String × String))
    (as : List Appointment) :
    ∀ st : LoopState,
      (as.foldl (processAppointment env um) st).writes
        = st.writes ++ as.filterMap (attemptWrite env um) := by
  induction as with
  | nil => intro st; simp
  | cons a rest ih =>
    intro st
    simp only [List.foldl_cons]
    rw [ih, processAppointment_writes]
    cases h : attemptWrite env um a <;>
      simp [List.filterMap_cons, h]

lemma foldl_process_wmWrites (env : Env) (um : List (String × String))
    (as : List Appointment) :
    ∀ st : LoopState,
      (as.foldl (processAppointment env um) st).wmWrites
        = st.wmWrites
          ++ (as.filter (fun a => (matchedSheetId um a.email).isSome)).map
              (fun a => a.rowIndex) := by
  induction as with
  | nil => intro st; simp
  | cons a rest ih =>
    intro st
    simp only [List.foldl_cons, List.filter_cons]
    rw [ih, processAppointment_wmWrites]
    cases h : (matchedSheetId um a.email).isSome <;> simp [h]

lemma foldl_process_watermark (env : Env) (um : List (String × String))
    (as : List Appointment) :
    ∀ st : LoopState,
      (as.foldl (processAppointment env um) st).watermark = st.watermark ∨
        ∃ a, a ∈ as ∧
          (as.foldl (processAppointment env um) st).watermark
            = some a.rowIndex := by
  induction as with
  | nil => intro st; left; rfl
  | cons a rest ih =>
    intro st
    simp only [List.foldl_cons]
    rcases ih (processAppointment env um st a) with h | ⟨b, hb, he⟩
    · rw [processAppointment_watermark] at h
      by_cases hc : (matchedSheetId um a.email).isSome = true
      · rw [if_pos hc] at h
        right; exact ⟨a, List.mem_cons_self a rest, h⟩
      · rw [if_neg hc] at h
        left; exact h
    · right; exact ⟨b, List.mem_cons_of_mem a hb, he⟩

/-! ### Run-level lemmas about syncAppointments -/

/-- The loop state at the end of a run in which both fetches succeed. -/
def finalState (env : Env) (wm : Option Nat) : LoopState :=
  (scanAppointments (getLastProcessedRow wm) env.master).foldl
    (processAppointment env (buildUsersMap env.users)) (initLoopState wm)

lemma fetchNewAppointments_ok {env : Env} (wm : Option Nat)
    (hk : env.apiKeyConfigured = true) (hm : env.masterFetchFails = false) :
    fetchNewAppointments env wm
      = Except.ok (scanAppointments (getLastProcessedRow wm) env.master) := by
  unfold fetchNewAppointments
  rw [hk, hm]
  rfl

lemma fetchUsersMap_ok {env : Env}
    (hk : env.apiKeyConfigured = true) (hu : env.usersFetchFails = false) :
    fetchUsersMap env = Except.ok (buildUsersMap env.users) := by
  unfold fetchUsersMap
  rw [hk, hu]
  rfl

lemma syncAppointments_no_rows {env : Env} {wm : Option Nat}
    (h : fetchNewAppointments env wm = Except.ok []) :
    syncAppointments env wm =
      { result := Except.ok { processed := 0, synced := 0, errors := 0 }
      , watermark := wm, wmWrites := [], writes := [] } := by
  unfold syncAppointments
  rw [h]
  rfl

lemma syncAppointments_loop {env : Env} {wm : Option Nat}
    (hk : env.apiKeyConfigured = true) (hm : env.masterFetchFails = false)
    (hu : env.usersFetchFails = false)
    (hne : scanAppointments (getLastProcessedRow wm) env.master ≠ []) :
    syncAppointments env wm =
      { result := Except.ok (finalState env wm).stats
      , watermark := (finalState env wm).watermark
      , wmWrites := (finalState env wm).wmWrites
      , writes := (finalState env wm).writes } := by
  unfold syncAppointments finalState
  rw [fetchNewAppointments_ok wm hk hm, fetchUsersMap_ok hk hu]
  simp [List.length_eq_zero, hne]

lemma syncAppointments_master_error {env : Env} (wm : Option Nat)
    (hk : env.apiKeyConfigured = true) (hm : env.masterFetchFails = true) :
    syncAppointments env wm =
      { result := Except.error "HTTP error"
      , watermark := wm, wmWrites := [], writes := [] } := by
  unfold syncAppointments fetchNewAppointments
  rw [hk, hm]
  rfl

lemma syncAppointments_users_error {env : Env} {wm : Option Nat}
    (hk : env.apiKeyConfigured = true) (hm : env.masterFetchFails = false)
    (hu : env.usersFetchFails = true)
    (hne : scanAppointments (getLastProcessedRow wm) env.master ≠ []) :
    syncAppointments env wm =
      { result := Except.error "HTTP error"
      , watermark := wm, wmWrites := [], writes := [] } := by
  unfold syncAppointments
  rw [fetchNewAppointments_ok wm hk hm]
  unfold fetchUsersMap
  rw [hk, hu]
  simp [List.length_eq_zero, hne]

lemma fetchNewAppointments_no_key {env : Env} (wm : Option Nat)
    (hk : env.apiKeyConfigured = false) :
    fetchNewAppointments env wm = Except.ok [] := by
  unfold fetchNewAppointments
  rw [hk]
  rfl

lemma syncAppointments_completes {env : Env} {wm : Option Nat}
    (hm : env.masterFetchFails = false) (hu : env.usersFetchFails = false) :
    ∃ s : Stats, (syncAppointments env wm).result = Except.ok s := by
  by_cases hk : env.apiKeyConfigured = true
  · by_cases hne : scanAppointments (getLastProcessedRow wm) env.master = []
    · refine ⟨{ processed := 0, synced := 0, errors := 0 }, ?_⟩
      rw [syncAppointments_no_rows (by rw [fetchNewAppointments_ok wm hk hm, hne])]
    · rw [syncAppointments_loop hk hm hu hne]
      exact ⟨_, rfl⟩
  · refine ⟨{ processed := 0, synced := 0, errors := 0 }, ?_⟩
    rw [syncAppointments_no_rows
      (fetchNewAppointments_no_key wm (Bool.not_eq_true _ ▸ hk))]

lemma attemptWrite_of_ok {env : Env} {um : List (String × String)}
    {a : Appointment} (hok : env.appendOk a.rowIndex = true) :
    attemptWrite env um a
      = Option.map (fun sid => (sid, appointmentToRow a))
          (matchedSheetId um a.email) := by
  unfold attemptWrite matchedSheetId
  cases hg : mapGet um a.email with
  | none => rfl
  | some sid =>
    by_cases hsid : sid = ""
    · simp [hsid]
    · simp [hsid, hok]

/-- Every run falls into one of three shapes: a completed loop run (both
fetches succeed on a non-empty scan), the early zero-stats return (the
fetch produced no appointments), or a propagated fetch error that leaves
the watermark untouched and performs no writes. -/
lemma syncAppointments_cases (env : Env) (wm : Option Nat) :
    (env.apiKeyConfigured = true ∧ env.masterFetchFails = false
      ∧ env.usersFetchFails = false
      ∧ scanAppointments (getLastProcessedRow wm) env.master ≠ []
      ∧ syncAppointments env wm =
          { result := Except.ok (finalState env wm).stats
          , watermark := (finalState env wm).watermark
          , wmWrites := (finalState env wm).wmWrites
          , writes := (finalState env wm).writes })
    ∨ (fetchNewAppointments env wm = Except.ok []
        ∧ syncAppointments env wm =
            { result := Except.ok { processed := 0, synced := 0, errors := 0 }
            , watermark := wm, wmWrites := [], writes := [] })
    ∨ (∃ e, syncAppointments env wm =
        { result := Except.error e
        , watermark := wm, wmWrites := [], writes := [] }) := by
  by_cases hk : env.apiKeyConfigured = true
  · by_cases hm : env.masterFetchFails = true
    · right; right
      exact ⟨_, syncAppointments_master_error wm hk hm⟩
    · rw [Bool.not_eq_true] at hm
      by_cases hne : scanAppointments (getLastProcessedRow wm) env.master = []
      · right; left
        have hf : fetchNewAppointments env wm = Except.ok [] := by
          rw [fetchNewAppointments_ok wm hk hm, hne]
        exact ⟨hf, syncAppointments_no_rows hf⟩
      · by_cases hu : env.usersFetchFails = true
        · right; right
          exact ⟨_, syncAppointments_users_error hk hm hu hne⟩
        · rw [Bool.not_eq_true] at hu
          left
          exact ⟨hk, hm, hu, hne, syncAppointments_loop hk hm hu hne⟩
  · rw [Bool.not_eq_true] at hk
    right; left
    have hf := fetchNewAppointments_no_key wm hk
    exact ⟨hf, syncAppointments_no_rows hf⟩

/-! ### Claim theorems -/

/-- Claim C5: if the scan of the master sheet returns no appointments, the
run returns zero processed, zero synced and zero errors, writes nothing to
any user sheet, makes no watermark write, and leaves the stored watermark
unchanged.  The hypothesis constrains only the master-sheet fetch; the
users directory and its fetch-failure flag are unconstrained (the witness
even sets `usersFetchFails := true`), which shows the user directory is not
fetched on this path. -/
theorem C5_no_new_rows_noop (env : Env) (wm : Option Nat)
    (h : fetchNewAppointments env wm = Except.ok []) :
    syncAppointments env wm =
      { result := Except.ok { processed := 0, synced := 0, errors := 0 }
      , watermark := wm, wmWrites := [], writes := [] } :=
  syncAppointments_no_rows h

theorem C5_no_new_rows_noop_witness :
    fetchNewAppointments envNoNewRows none = Except.ok []
      ∧ envNoNewRows.usersFetchFails = true
      ∧ syncAppointments envNoNewRows none =
          { result := Except.ok { processed := 0, synced := 0, errors := 0 }
          , watermark := none, wmWrites := [], writes := [] } :=
  ⟨by decide, by decide, C5_no_new_rows_noop envNoNewRows none (by decide)⟩

/-- Claim C6: a failing master-sheet fetch aborts the run with the error
propagated, the watermark untouched and nothing written; so does a failing
users-directory fetch when there are scanned appointments; and whenever
both fetches succeed the run completes with ok stats regardless of how
many individual rows fail (per-row errors are caught and counted, never
propagated). -/
theorem C6_fetch_failures_abort (env : Env) (wm : Option Nat) :
    (env.apiKeyConfigured = true → env.masterFetchFails = true →
      syncAppointments env wm =
        { result := Except.error "HTTP error"
        , watermark := wm, wmWrites := [], writes := [] })
    ∧ (env.apiKeyConfigured = true → env.masterFetchFails = false →
        env.usersFetchFails = true →
        scanAppointments (getLastProcessedRow wm) env.master ≠ [] →
        syncAppointments env wm =
          { result := Except.error "HTTP error"
          , watermark := wm, wmWrites := [], writes := [] })
    ∧ (env.masterFetchFails = false → env.usersFetchFails = false →
        ∃ s : Stats, (syncAppointments env wm).result = Except.ok s) :=
  ⟨fun hk hm => syncAppointments_master_error wm hk hm,
   fun hk hm hu hne => syncAppointments_users_error hk hm hu hne,
   fun hm hu => syncAppointments_completes hm hu⟩

theorem C6_fetch_failures_abort_witness :
    envMasterFail.apiKeyConfigured = true
      ∧ envMasterFail.masterFetchFails = true
      ∧ syncAppointments envMasterFail none =
          { result := Except.error "HTTP error"
          , watermark := none, wmWrites := [], writes := [] } :=
  ⟨by decide, by decide,
    (C6_fetch_failures_abort envMasterFail none).1 (by decide) (by decide)⟩

/-- Claim C7: on every run that completes with ok stats, processed equals
synced plus errors, and processed equals the number of appointments the
fetch handed to the loop. -/
theorem C7_stats_balance (env : Env) (wm : Option Nat) (s : Stats)
    (hs : (syncAppointments env wm).result = Except.ok s) :
    s.processed = s.synced + s.errors
      ∧ ∀ l, fetchNewAppointments env wm = Except.ok l →
          s.processed = l.length := by
  rcases syncAppointments_cases env wm with
    ⟨hk, hm, hu, hne, heq⟩ | ⟨hf, heq⟩ | ⟨e, heq⟩
  · rw [heq] at hs
    have hs2 : Except.ok (finalState env wm).stats = Except.ok s := hs
    injection hs2 with hs2
    subst hs2
    have h1 := foldl_process_sum env (buildUsersMap env.users)
      (scanAppointments (getLastProcessedRow wm) env.master) (initLoopState wm)
    have h2 := foldl_process_processed env (buildUsersMap env.users)
      (scanAppointments (getLastProcessedRow wm) env.master) (initLoopState wm)
    have e1 : (initLoopState wm).stats.processed = 0 := rfl
    have e2 : (initLoopState wm).stats.synced = 0 := rfl
    have e3 : (initLoopState wm).stats.errors = 0 := rfl
    constructor
    · unfold finalState
      omega
    · intro l hl
      rw [fetchNewAppointments_ok wm hk hm] at hl
      injection hl with hl
      subst hl
      unfold finalState
      omega
  · rw [heq] at hs
    have hs2 : Except.ok { processed := 0, synced := 0, errors := 0 }
        = Except.ok s := hs
    injection hs2 with hs2
    subst hs2
    refine ⟨rfl, ?_⟩
    intro l hl
    rw [hf] at hl
    injection hl with hl
    subst hl
    rfl
  · rw [heq] at hs
    have hs2 : Except.error e = Except.ok s := hs
    exact absurd hs2 (by simp)

theorem C7_stats_balance_witness :
    (syncAppointments envOneMatch none).result
        = Except.ok { processed := 1, synced := 1, errors := 0 }
      ∧ (1 : Nat) = 1 + 0 :=
  ⟨by decide,
    (C7_stats_balance envOneMatch none
      { processed := 1, synced := 1, errors := 0 } (by decide)).1⟩

/-- Claim C3: the watermark never decreases.  Every value passed to
`setLastProcessedRow` during a run is at least the watermark read at the
start of the run (in fact strictly greater), successive watermark writes
within a run are strictly increasing, and the watermark after the run is
at least the watermark before it. -/
theorem C3_watermark_monotone (env : Env) (wm : Option Nat) :
    (∀ v ∈ (syncAppointments env wm).wmWrites, getLastProcessedRow wm ≤ v)
    ∧ (syncAppointments env wm).wmWrites.Pairwise (fun x y => x < y)
    ∧ getLastProcessedRow wm
        ≤ getLastProcessedRow (syncAppointments env wm).watermark := by
  rcases syncAppointments_cases env wm with
    ⟨hk, hm, hu, hne, heq⟩ | ⟨hf, heq⟩ | ⟨e, heq⟩
  · rw [heq]
    unfold finalState
    refine ⟨?_, ?_, ?_⟩
    · rw [foldl_process_wmWrites]
      simp only [initLoopState, List.nil_append]
      intro v hv
      obtain ⟨a, ha, hva⟩ := List.mem_map.mp hv
      have hmem := List.mem_filter.mp ha
      have := scanAppointments_rowIndex_ge a hmem.1
      omega
    · rw [foldl_process_wmWrites]
      simp only [initLoopState, List.nil_append]
      rw [List.pairwise_map]
      exact ((scanAppointments_pairwise _ _).sublist (List.filter_sublist _))
    · rcases foldl_process_watermark env (buildUsersMap env.users)
          (scanAppointments (getLastProcessedRow wm) env.master)
          (initLoopState wm) with h | ⟨a, ha, h⟩
      · rw [h]; exact Nat.le_refl _
      · rw [h]
        have h1 := scanAppointments_rowIndex_ge a ha
        have h2 : getLastProcessedRow (some a.rowIndex) = a.rowIndex := rfl
        rw [h2]
        omega
  · rw [heq]
    exact ⟨fun v hv => absurd hv (List.not_mem_nil v), List.Pairwise.nil,
      Nat.le_refl _⟩
  · rw [heq]
    exact ⟨fun v hv => absurd hv (List.not_mem_nil v), List.Pairwise.nil,
      Nat.le_refl _⟩

theorem C3_watermark_monotone_witness :
    2 ∈ (syncAppointments envOneMatch none).wmWrites
      ∧ getLastProcessedRow none ≤ 2
      ∧ getLastProcessedRow none
          ≤ getLastProcessedRow (syncAppointments envOneMatch none).watermark :=
  ⟨by decide, (C3_watermark_monotone envOneMatch none).1 2 (by decide),
    (C3_watermark_monotone envOneMatch none).2.2⟩

/-- Claim C4: on a completed run, the errors count is exactly the number of
scanned rows whose loop iteration performed no write (`attemptWrite = none`,
which includes every row whose lower-cased trimmed email has no directory
entry), the writes performed are exactly the per-row `attemptWrite`
results, and an unmatched row's `attemptWrite` is `none` — so every
unmatched row is counted in errors and contributes no write to any user
sheet. -/
theorem C4_unmatched_rows_counted_not_written (env : Env) (wm : Option Nat)
    (s : Stats) (hk : env.apiKeyConfigured = true)
    (hm : env.masterFetchFails = false) (hu : env.usersFetchFails = false)
    (hs : (syncAppointments env wm).result = Except.ok s) :
    s.errors = (scanAppointments (getLastProcessedRow wm) env.master).countP
        (fun a => (attemptWrite env (buildUsersMap env.users) a).isNone)
      ∧ (syncAppointments env wm).writes
          = (scanAppointments (getLastProcessedRow wm) env.master).filterMap
              (attemptWrite env (buildUsersMap env.users))
      ∧ ∀ a ∈ scanAppointments (getLastProcessedRow wm) env.master,
          mapGet (buildUsersMap env.users) a.email = none →
            attemptWrite env (buildUsersMap env.users) a = none := by
  have hthird : ∀ a ∈ scanAppointments (getLastProcessedRow wm) env.master,
      mapGet (buildUsersMap env.users) a.email = none →
        attemptWrite env (buildUsersMap env.users) a = none := by
    intro a _ hnone
    unfold attemptWrite
    rw [hnone]
  by_cases hne : scanAppointments (getLastProcessedRow wm) env.master = []
  · have hf : fetchNewAppointments env wm = Except.ok [] := by
      rw [fetchNewAppointments_ok wm hk hm, hne]
    rw [syncAppointments_no_rows hf] at hs ⊢
    have hs2 : Except.ok { processed := 0, synced := 0, errors := 0 }
        = Except.ok s := hs
    injection hs2 with hs2
    subst hs2
    refine ⟨?_, ?_, hthird⟩
    · rw [hne]; rfl
    · rw [hne]; rfl
  · rw [syncAppointments_loop hk hm hu hne] at hs ⊢
    have hs2 : Except.ok (finalState env wm).stats = Except.ok s := hs
    injection hs2 with hs2
    subst hs2
    refine ⟨?_, ?_, hthird⟩
    · unfold finalState
      rw [foldl_process_errors]
      have e1 : (initLoopState wm).stats.errors = 0 := rfl
      omega
    · unfold finalState
      rw [foldl_process_writes]
      rfl

theorem C4_unmatched_rows_counted_not_written_witness :
    (syncAppointments envUnmatched none).result
        = Except.ok { processed := 1, synced := 0, errors := 1 }
      ∧ ({ processed := 1, synced := 0, errors := 1 } : Stats).errors
          = (scanAppointments (getLastProcessedRow none) envUnmatched.master).countP
              (fun a => (attemptWrite envUnmatched
                (buildUsersMap envUnmatched.users) a).isNone)
      ∧ (syncAppointments envUnmatched none).writes
          = (scanAppointments (getLastProcessedRow none) envUnmatched.master).filterMap
              (attemptWrite envUnmatched (buildUsersMap envUnmatched.users)) :=
  ⟨by decide,
    (C4_unmatched_rows_counted_not_written envUnmatched none
      { processed := 1, synced := 0, errors := 1 }
      (by decide) (by decide) (by decide) (by decide)).1,
    (C4_unmatched_rows_counted_not_written envUnmatched none
      { processed := 1, synced := 0, errors := 1 }
      (by decide) (by decide) (by decide) (by decide)).2.1⟩

/-- Claim C1: on a run in which both fetches succeed and every HTTP append
succeeds, the writes performed are exactly one append per scanned row whose
email matches the directory — matched in the program's sense, i.e. the
lookup passes the `if (!userSpreadsheetId)` truthiness test of line 237 by
resolving to a non-empty sheet id — directed at that sheet id; every
scanned appointment sits at a master row index at least the stored
watermark plus one; each scanned appointment's email is the lower-cased,
trimmed text of its master row's email cell; and every directory key is the
lower-cased, trimmed text of a users row's email cell (with the trimmed
sheet id as value). -/
theorem C1_scan_resolve_fanout (env : Env) (wm : Option Nat)
    (hk : env.apiKeyConfigured = true) (hm : env.masterFetchFails = false)
    (hu : env.usersFetchFails = false)
    (hok : ∀ n, env.appendOk n = true) :
    (syncAppointments env wm).writes
      = (scanAppointments (getLastProcessedRow wm) env.master).filterMap
          (fun a => Option.map (fun sid => (sid, appointmentToRow a))
            (matchedSheetId (buildUsersMap env.users) a.email))
    ∧ (∀ a ∈ scanAppointments (getLastProcessedRow wm) env.master,
        getLastProcessedRow wm + 1 ≤ a.rowIndex)
    ∧ (∀ a ∈ scanAppointments (getLastProcessedRow wm) env.master,
        ∃ row, row ∈ env.master ∧ a.email = jsTrim (jsToLower (row.getD 1 "")))
    ∧ (∀ p ∈ buildUsersMap env.users,
        ∃ row, row ∈ env.users ∧ p.1 = jsTrim (jsToLower (row.getD 0 ""))
          ∧ p.2 = jsTrim (row.getD 2 "")) := by
  have hfun : attemptWrite env (buildUsersMap env.users)
      = fun a => Option.map (fun sid => (sid, appointmentToRow a))
          (matchedSheetId (buildUsersMap env.users) a.email) :=
    funext (fun a => attemptWrite_of_ok (hok a.rowIndex))
  refine ⟨?_, fun a ha => scanAppointments_rowIndex_ge a ha, ?_, ?_⟩
  · by_cases hne : scanAppointments (getLastProcessedRow wm) env.master = []
    · have hf : fetchNewAppointments env wm = Except.ok [] := by
        rw [fetchNewAppointments_ok wm hk hm, hne]
      rw [syncAppointments_no_rows hf, hne]
      rfl
    · rw [syncAppointments_loop hk hm hu hne]
      unfold finalState
      rw [foldl_process_writes, hfun]
      rfl
  · intro a ha
    obtain ⟨row, hrow, he⟩ := scanAppointments_src a ha
    refine ⟨row, hrow, ?_⟩
    rw [he]
    rfl
  · intro p hp
    obtain ⟨row, hrow, he⟩ := mem_buildUsersMap p hp
    subst he
    exact ⟨row, hrow, rfl, rfl⟩

theorem C1_scan_resolve_fanout_witness :
    ((syncAppointments envOneMatch none).writes
        = (scanAppointments (getLastProcessedRow none) envOneMatch.master).filterMap
            (fun a => Option.map (fun sid => (sid, appointmentToRow a))
              (matchedSheetId (buildUsersMap envOneMatch.users) a.email))
      ∧ (syncAppointments envOneMatch none).writes
          = [("SHEET-A",
              ["Alice", "a@x.com", "555", "r1", "2024-01-01", "09:00", "scheduled"])])
    ∧ ((syncAppointments envEmptySheetId none).writes
        = (scanAppointments (getLastProcessedRow none) envEmptySheetId.master).filterMap
            (fun a => Option.map (fun sid => (sid, appointmentToRow a))
              (matchedSheetId (buildUsersMap envEmptySheetId.users) a.email))
      ∧ mapGet (buildUsersMap envEmptySheetId.users) "a@x.com" = some ""
      ∧ (syncAppointments envEmptySheetId none).writes = []) :=
  ⟨⟨(C1_scan_resolve_fanout envOneMatch none
      (by decide) (by decide) (by decide) (fun n => rfl)).1,
    by decide⟩,
   ⟨(C1_scan_resolve_fanout envEmptySheetId none
      (by decide) (by decide) (by decide) (fun n => rfl)).1,
    by decide, by decide⟩⟩

/-- Claim C10: every row ever appended to a user sheet by a run comes from a
master row and carries, in column order: the patient-name cell verbatim, the
lower-cased trimmed email cell (not its original text), then phone, report
URL, date and start-time cells verbatim, and the status cell with empty
defaulted to "scheduled". -/
theorem C10_written_row_shape (env : Env) (wm : Option Nat) :
    ∀ w ∈ (syncAppointments env wm).writes, ∃ row, row ∈ env.master ∧
      w.2 = [ row.getD 0 "", jsTrim (jsToLower (row.getD 1 "")), row.getD 2 ""
            , row.getD 3 "", row.getD 4 "", row.getD 5 ""
            , if row.getD 6 "" = "" then "scheduled" else row.getD 6 "" ] := by
  intro w hw
  rcases syncAppointments_cases env wm with
    ⟨hk, hm, hu, hne, heq⟩ | ⟨hf, heq⟩ | ⟨e, heq⟩
  · rw [heq] at hw
    unfold finalState at hw
    rw [foldl_process_writes] at hw
    simp only [initLoopState, List.nil_append] at hw
    obtain ⟨a, ha, hwa⟩ := List.mem_filterMap.mp hw
    obtain ⟨row, hrow, he⟩ := scanAppointments_src a ha
    refine ⟨row, hrow, ?_⟩
    unfold attemptWrite at hwa
    cases hg : mapGet (buildUsersMap env.users) a.email with
    | none => rw [hg] at hwa; exact absurd hwa (by simp)
    | some sid =>
      rw [hg] at hwa
      have hwa2 : (if sid = "" then none
          else if env.appendOk a.rowIndex = true
            then some (sid, appointmentToRow a) else none)
          = some w := hwa
      by_cases hsid : sid = ""
      · rw [if_pos hsid] at hwa2
        exact absurd hwa2 (by simp)
      · rw [if_neg hsid] at hwa2
        cases hb : env.appendOk a.rowIndex with
        | false => rw [hb] at hwa2; exact absurd hwa2 (by simp)
        | true =>
          rw [hb] at hwa2
          simp only [if_true] at hwa2
          injection hwa2 with hwa2
          rw [← hwa2]
          rw [he]
          rfl
  · rw [heq] at hw
    exact absurd hw (List.not_mem_nil w)
  · rw [heq] at hw
    exact absurd hw (List.not_mem_nil w)

theorem C10_written_row_shape_witness :
    ("SHEET-A", ["Alice", "a@x.com", "555", "r1", "2024-01-01", "09:00", "scheduled"])
        ∈ (syncAppointments envOneMatch none).writes
      ∧ ∃ row, row ∈ envOneMatch.master ∧
          ("SHEET-A",
            ["Alice", "a@x.com", "555", "r1", "2024-01-01", "09:00", "scheduled"]).2
            = [ row.getD 0 "", jsTrim (jsToLower (row.getD 1 "")), row.getD 2 ""
              , row.getD 3 "", row.getD 4 "", row.getD 5 ""
              , if row.getD 6 "" = "" then "scheduled" else row.getD 6 "" ] :=
  ⟨by decide, C10_written_row_shape envOneMatch none _ (by decide)⟩

/-- Claim C2 counterexample: with one scanned row whose email has no
directory entry, the row is processed (processed = 1) yet no watermark
write happens and the stored watermark stays at its initial value `none`,
not the row's index 2 — the `continue` for an unmatched email skips the
`setLastProcessedRow` call, contradicting "for every processed row the
stored watermark is set to that row's index". -/
theorem C2_counterexample :
    (scanAppointments (getLastProcessedRow none) envUnmatched.master).map
        (fun a => a.rowIndex) = [2]
      ∧ (syncAppointments envUnmatched none).result
          = Except.ok { processed := 1, synced := 0, errors := 1 }
      ∧ (syncAppointments envUnmatched none).wmWrites = []
      ∧ (syncAppointments envUnmatched none).watermark = none
      ∧ ¬ (syncAppointments envUnmatched none).watermark = some 2 := by
  refine ⟨by decide, by decide, by decide, by decide, by decide⟩

/-- Claim C2 as amended: the watermark writes of a run are exactly the row
indices of the scanned rows whose email passes the line 237 truthiness
test, i.e. resolves in the directory to a non-empty sheet id — so a
matched row advances the watermark past itself even when its append fails
(the filter ignores `appendOk`), while a row that fails the test (no
directory entry, or an entry whose trimmed sheet id is empty) takes the
`continue` that skips the watermark update.  Moreover any row index
recorded in the watermark is never scanned again once the stored watermark
is at least it: every row a later scan returns lies strictly beyond it. -/
theorem C2_amended_watermark_only_matched (env : Env) (wm : Option Nat)
    (hk : env.apiKeyConfigured = true) (hm : env.masterFetchFails = false)
    (hu : env.usersFetchFails = false) :
    (syncAppointments env wm).wmWrites
      = ((scanAppointments (getLastProcessedRow wm) env.master).filter
          (fun a => (matchedSheetId (buildUsersMap env.users) a.email).isSome)).map
          (fun a => a.rowIndex)
    ∧ ∀ v ∈ (syncAppointments env wm).wmWrites,
        ∀ n, v ≤ n → ∀ b ∈ scanAppointments n env.master, v < b.rowIndex := by
  have hlater : ∀ v : Nat, ∀ n, v ≤ n →
      ∀ b ∈ scanAppointments n env.master, v < b.rowIndex := by
    intro v n hvn b hb
    have := scanAppointments_rowIndex_ge b hb
    omega
  refine ⟨?_, fun v _ => hlater v⟩
  by_cases hne : scanAppointments (getLastProcessedRow wm) env.master = []
  · have hf : fetchNewAppointments env wm = Except.ok [] := by
      rw [fetchNewAppointments_ok wm hk hm, hne]
    rw [syncAppointments_no_rows hf, hne]
    rfl
  · rw [syncAppointments_loop hk hm hu hne]
    unfold finalState
    rw [foldl_process_wmWrites]
    rfl

theorem C2_amended_watermark_only_matched_witness :
    (envAppendFail.appendOk 2 = false
      ∧ (syncAppointments envAppendFail none).result
          = Except.ok { processed := 1, synced := 0, errors := 1 }
      ∧ (syncAppointments envAppendFail none).wmWrites
          = ((scanAppointments (getLastProcessedRow none) envAppendFail.master).filter
              (fun a => (matchedSheetId (buildUsersMap envAppendFail.users) a.email).isSome)).map
              (fun a => a.rowIndex)
      ∧ (syncAppointments envAppendFail none).wmWrites = [2])
    ∧ ((syncAppointments envEmptySheetId none).wmWrites
          = ((scanAppointments (getLastProcessedRow none) envEmptySheetId.master).filter
              (fun a => (matchedSheetId (buildUsersMap envEmptySheetId.users) a.email).isSome)).map
              (fun a => a.rowIndex)
      ∧ mapGet (buildUsersMap envEmptySheetId.users) "a@x.com" = some ""
      ∧ (syncAppointments envEmptySheetId none).wmWrites = []
      ∧ (syncAppointments envEmptySheetId none).result
          = Except.ok { processed := 1, synced := 0, errors := 1 }) :=
  ⟨⟨by decide, by decide,
    (C2_amended_watermark_only_matched envAppendFail none
      (by decide) (by decide) (by decide)).1,
    by decide⟩,
   ⟨(C2_amended_watermark_only_matched envEmptySheetId none
      (by decide) (by decide) (by decide)).1,
    by decide, by decide, by decide⟩⟩

/-- Claim C9 counterexample: master row 2 has an empty email cell, so it is
filtered out of the scan, while master row 3 matches the directory; the run
then sets the stored watermark to 3, i.e. the watermark IS advanced past
the filtered row 2, contradicting "the stored watermark is never advanced
past them" — the filtered row is silently skipped forever rather than
re-read. -/
theorem C9_counterexample :
    jsTrim (jsToLower ((envSkipThenMatch.master.getD 1 []).getD 1 "")) = ""
      ∧ (scanAppointments (getLastProcessedRow none) envSkipThenMatch.master).map
          (fun a => a.rowIndex) = [3]
      ∧ (syncAppointments envSkipThenMatch none).watermark = some 3
      ∧ getLastProcessedRow (syncAppointments envSkipThenMatch none).watermark > 2 := by
  refine ⟨by decide, by decide, by decide, by decide⟩

/-- Claim C9 as amended: rows with an empty email or patient name are
excluded from the scan (every scanned appointment has both non-empty), no
watermark write ever carries a filtered row's index (each recorded value is
the index of some scanned row), and when the master fetch yields no
appointments the run is a complete no-op with zero counts and an unchanged
watermark — so an all-filtered tail is re-read by every later run.  (The
original claim's "never advanced past them" is false: a later matched row
does advance the watermark past earlier filtered rows, as the
counterexample shows.) -/
theorem C9_amended_filtered_rows (env : Env) (wm : Option Nat) :
    (∀ a ∈ scanAppointments (getLastProcessedRow wm) env.master,
        a.email ≠ "" ∧ a.patientName ≠ "")
    ∧ (∀ v ∈ (syncAppointments env wm).wmWrites,
        ∃ a, a ∈ scanAppointments (getLastProcessedRow wm) env.master
          ∧ v = a.rowIndex)
    ∧ (fetchNewAppointments env wm = Except.ok [] →
        syncAppointments env wm =
          { result := Except.ok { processed := 0, synced := 0, errors := 0 }
          , watermark := wm, wmWrites := [], writes := [] }) := by
  refine ⟨?_, ?_, fun hf => syncAppointments_no_rows hf⟩
  · intro a ha
    exact ⟨(mem_scanAppointments ha).2.1, (mem_scanAppointments ha).2.2⟩
  · intro v hv
    rcases syncAppointments_cases env wm with
      ⟨hk, hm, hu, hne, heq⟩ | ⟨hf, heq⟩ | ⟨e, heq⟩
    · rw [heq] at hv
      unfold finalState at hv
      rw [foldl_process_wmWrites] at hv
      simp only [initLoopState, List.nil_append] at hv
      obtain ⟨a, ha, hva⟩ := List.mem_map.mp hv
      exact ⟨a, (List.mem_filter.mp ha).1, hva.symm⟩
    · rw [heq] at hv
      exact absurd hv (List.not_mem_nil v)
    · rw [heq] at hv
      exact absurd hv (List.not_mem_nil v)

theorem C9_amended_filtered_rows_witness :
    3 ∈ (syncAppointments envSkipThenMatch none).wmWrites
      ∧ (∃ a, a ∈ scanAppointments (getLastProcessedRow none) envSkipThenMatch.master
          ∧ 3 = a.rowIndex)
      ∧ fetchNewAppointments envNoNewRows none = Except.ok []
      ∧ syncAppointments envNoNewRows none =
          { result := Except.ok { processed := 0, synced := 0, errors := 0 }
          , watermark := none, wmWrites := [], writes := [] } :=
  ⟨by decide,
    (C9_amended_filtered_rows envSkipThenMatch none).2.1 3 (by decide),
    by decide,
    (C9_amended_filtered_rows envNoNewRows none).2.2 (by decide)⟩
